import Mathlib

/-!
Verification of the warp benchmark tool's analysis, coordination and merge
logic against its natural-language specification.

Times and durations are modelled as integer nanosecond counts (Go's
`time.Duration` is an `int64` of nanoseconds; Go's `time.Time` is modelled by
its nanosecond instant).  Functions that live in the `cli` package are
translated directly from the Go sources; a few helpers from the `bench`
package (whose sources are not part of the repository snapshot) are modelled
from the specification and say so in their doc comments.
-/

namespace Warp

/-! ## Segment-duration selection (`analysisDur`, analyze command) -/

/-- Standard durations tried by `analysisDur`, in nanoseconds:
1s, 5s, 15s, 1m, 5m, 15m, 1h, 3h (the `stdDurations` slice in the source). -/
def stdDurations : List Nat :=
  [1000000000, 5000000000, 15000000000, 60000000000,
   300000000000, 900000000000, 3600000000000, 10800000000000]

/-- Loop body of `analysisDur`: walk the standard durations in order, keeping
the current candidate in `dur`; stop at the first `d` with `total/d <= 400`
(Go integer division); when no entry qualifies the last candidate remains. -/
def pickDur (total : Nat) : List Nat → Nat
  | [] => 0
  | [d] => d
  | d :: rest => if total / d ≤ 400 then d else pickDur total rest

/-- The `analysisDur` function of the analyze command.  `flagDur` is the
parsed value of the `analyze.dur` flag (`none` when the flag is unset, in
which case the source holds the empty string).  When unset: a zero total
yields 0, otherwise the standard-duration scan runs with `wantAtMost = 400`. -/
def analysisDur (flagDur : Option Nat) (total : Nat) : Nat :=
  match flagDur with
  | some d => d
  | none => if total = 0 then 0 else pickDur total stdDurations

/-- Number of fixed-width segments of width `d` needed to tile a span of
length `total`: the ceiling of `total / d`, following the specification's
segment-count formula. -/
def segmentCount (total d : Nat) : Nat := (total + d - 1) / d

/-- Formalisation of the claim's words for comparison: the smallest standard
duration producing at most 400 segments (segment count taken as a ceiling),
falling back to 3h when none qualifies. -/
def specSegmentDur (total : Nat) : Nat :=
  (stdDurations.find? fun d => segmentCount total d ≤ 400).getD 10800000000000

/-- Claim C1 (counterexample): at a total duration of 400s + 1ns the code
picks the 1s segment duration (because `total/d` truncates to 400), although
1s yields 401 segments; the smallest standard duration producing at most 400
segments would be 5s.  So the code's choice differs from the claimed one. -/
theorem analysisDur_ceil_counterexample :
    analysisDur none 400000000001 = 1000000000 ∧
    400 < segmentCount 400000000001 (analysisDur none 400000000001) ∧
    specSegmentDur 400000000001 = 5000000000 ∧
    analysisDur none 400000000001 ≠ specSegmentDur 400000000001 := by
  decide

/-- Claim C1 (amended): when the `analyze.dur` flag is unset and the total
duration is positive, the chosen duration is the smallest entry of
{1s, 5s, 15s, 1m, 5m, 15m, 1h, 3h} whose truncated quotient `total / d` is at
most 400 (at most 400 whole segments fit in the total duration), falling back
to 3h when no entry qualifies; when the total duration is 0 the chosen
duration is 0 so segmenting is skipped. -/
theorem analysisDur_unset_smallest (total : Nat) (hpos : 0 < total) :
    analysisDur none total ∈ stdDurations ∧
    (∀ d ∈ stdDurations, total / d ≤ 400 →
      total / analysisDur none total ≤ 400 ∧ analysisDur none total ≤ d) ∧
    ((∀ d ∈ stdDurations, 400 < total / d) →
      analysisDur none total = 10800000000000) ∧
    analysisDur none 0 = 0 := by
  have hne : total ≠ 0 := Nat.pos_iff_ne_zero.mp hpos
  refine ⟨?_, ?_, ?_, by decide⟩
  · simp only [analysisDur, if_neg hne, stdDurations, pickDur]
    split_ifs <;> simp
  · simp only [analysisDur, if_neg hne, stdDurations, pickDur]
    split_ifs with h1 h2 h3 h4 h5 h6 h7 <;>
      · intro d hd hdle
        fin_cases hd <;> omega
  · simp only [analysisDur, if_neg hne, stdDurations, pickDur]
    split_ifs with h1 h2 h3 h4 h5 h6 h7 <;>
      · intro hall
        have c1 := hall 1000000000 (by simp)
        have c2 := hall 5000000000 (by simp)
        have c3 := hall 15000000000 (by simp)
        have c4 := hall 60000000000 (by simp)
        have c5 := hall 300000000000 (by simp)
        have c6 := hall 900000000000 (by simp)
        have c7 := hall 3600000000000 (by simp)
        omega

/-- Claim C1 witness: the amended theorem applied at the concrete total
duration 2000s, where the scan settles on 5s. -/
theorem analysisDur_unset_smallest_witness :
    (0 : Nat) < 2000000000000 ∧
    (analysisDur none 2000000000000 ∈ stdDurations ∧
     (∀ d ∈ stdDurations, 2000000000000 / d ≤ 400 →
       2000000000000 / analysisDur none 2000000000000 ≤ 400 ∧
       analysisDur none 2000000000000 ≤ d) ∧
     ((∀ d ∈ stdDurations, 400 < 2000000000000 / d) →
       analysisDur none 2000000000000 = 10800000000000) ∧
     analysisDur none 0 = 0) :=
  ⟨by decide, analysisDur_unset_smallest 2000000000000 (by decide)⟩

/-! ## Handshake validation (`serverInfo.validate`, benchserver.go) -/

/-- The single supported protocol version (`warpServerVersion` in the source). -/
def warpServerVersion : Int := 1

/-- The `serverInfo` struct sent by the coordinator at handshake. -/
structure ServerInfo where
  id : String
  secret : String
  version : Int

/-- The `validate` method on `serverInfo`: reject an empty id, then reject a
version different from `warpServerVersion`. -/
def ServerInfo.validate (s : ServerInfo) : Except String Unit :=
  if s.id = "" then .error "no server id sent"
  else if s.version ≠ warpServerVersion then
    .error "warp server and client version mismatch"
  else .ok ()

/-- Claim C9: handshake validation of a received ServerInfo succeeds exactly
when the server id is non-empty and the protocol version equals the single
supported version 1; otherwise it returns an error. -/
theorem validate_ok_iff (s : ServerInfo) :
    (ServerInfo.validate s = .ok () ↔ s.id ≠ "" ∧ s.version = 1) ∧
    ((s.id = "" ∨ s.version ≠ 1) → ∃ e, ServerInfo.validate s = .error e) := by
  unfold ServerInfo.validate warpServerVersion
  split_ifs with h1 h2 <;> simp_all

/-- Claim C9 witness: validation at a concrete ServerInfo with a non-empty id
and version 1 succeeds. -/
theorem validate_ok_iff_witness :
    ServerInfo.validate ⟨"abc", "", 1⟩ = .ok () :=
  (validate_ok_iff ⟨"abc", "", 1⟩).1.mpr ⟨by decide, rfl⟩

/-! ## Clock-skew check in the coordinator's `connect` (benchserver.go) -/

/-- Modelled from the spec: the `ClientReply` frame (section 6.2) carries an
optional error string and the follower's wall-clock time; its Go definition
lives in the follower-side file that is not part of the source snapshot.
Only the fields read by `connect` are modelled; the time is an instant in
nanoseconds. -/
structure ClientReply where
  err : String
  time : Int

/-- Errors a single `connect` attempt can end with, in source order: dial
failure, failure writing the server info, failure reading the reply, an error
string in the reply, and finally the clock-skew rejection carrying the
absolute delta (whose message tells the operator to synchronize clocks). -/
inductive ConnectError
  | dialFailed (e : String)
  | writeFailed (e : String)
  | readFailed (e : String)
  | replyFailed (e : String)
  | clockSkew (delta : Int)
deriving DecidableEq

/-- One iteration of the retry loop in `connect`.  `sent` is the instant just
before the server info is written, `now1` the instant at which
`roundtrip := time.Since(sent)` is taken after the reply is read, and `now2`
the instant of the `time.Since` in the delta computation.  The skew estimate
is `now2 - (reply.time + roundtrip/2)` with Go's truncating `int64` division,
and the attempt is rejected when its absolute value exceeds one second. -/
def connectAttempt (dial : Option String) (write : Option String)
    (readReply : Except String ClientReply) (sent now1 now2 : Int) :
    Except ConnectError Unit :=
  match dial with
  | some e => .error (.dialFailed e)
  | none =>
    match write with
    | some e => .error (.writeFailed e)
    | none =>
      match readReply with
      | .error e => .error (.readFailed e)
      | .ok resp =>
        if resp.err ≠ "" then .error (.replyFailed resp.err)
        else
          let roundtrip := now1 - sent
          let delta0 := now2 - (resp.time + Int.tdiv roundtrip 2)
          let delta := if delta0 < 0 then -delta0 else delta0
          if delta > 1000000000 then .error (.clockSkew delta) else .ok ()

/-- Claim C2: in a handshake attempt whose dial, write and read steps succeed
and whose reply carries no error, the skew estimate is the elapsed time since
the follower's reported time plus half the measured round-trip, and the
attempt fails with the clock-skew error exactly when the absolute value of
that estimate exceeds one second (otherwise it succeeds). -/
theorem connectAttempt_clock_skew_iff (resp : ClientReply) (sent now1 now2 : Int)
    (hre : resp.err = "") :
    (connectAttempt none none (.ok resp) sent now1 now2 =
        .error (.clockSkew |now2 - (resp.time + Int.tdiv (now1 - sent) 2)|) ↔
      1000000000 < |now2 - (resp.time + Int.tdiv (now1 - sent) 2)|) ∧
    (connectAttempt none none (.ok resp) sent now1 now2 = .ok () ↔
      |now2 - (resp.time + Int.tdiv (now1 - sent) 2)| ≤ 1000000000) := by
  have habs : ∀ x : Int, (if x < 0 then -x else x) = |x| := by
    intro x
    by_cases hx : x < 0
    · simp [hx, abs_of_neg hx]
    · simp [hx, abs_of_nonneg (le_of_not_lt hx)]
  simp only [connectAttempt, hre, ne_eq, not_true_eq_false, if_false, habs]
  constructor
  · constructor
    · intro h
      by_contra hle
      rw [if_neg (by omega)] at h
      exact absurd h (by simp)
    · intro h
      rw [if_pos (by omega)]
  · constructor
    · intro h
      by_contra hgt
      rw [if_pos (by omega)] at h
      exact absurd h (by simp)
    · intro h
      rw [if_neg (by omega)]

/-- Claim C2 witness: with a reply reporting time 0 and zero round-trip, an
observation instant of 3s gives a skew of 3s, which is rejected. -/
theorem connectAttempt_clock_skew_iff_witness :
    connectAttempt none none (.ok ⟨"", 0⟩) 0 0 3000000000 =
      .error (.clockSkew 3000000000) := by
  simpa using (connectAttempt_clock_skew_iff ⟨"", 0⟩ 0 0 3000000000 rfl).1.mpr
    (by decide)

/-! ## Pseudorandom ASCII ids (`pRandASCII`, benchmark.go) -/

/-- The 62-character alphabet used by `pRandASCII`. -/
def asciiLetters : List Char :=
  "abcdefghijklmnopqrstuvwxyzABCDEFGHIJKLMNOPQRSTUVWXYZ1234567890".toList

/-- Character selection of `pRandASCII`: index the alphabet by the upper half
of the current 32-bit state reduced modulo the alphabet's length. -/
def pickChar (rnd : Nat) : Char :=
  asciiLetters.get ⟨(rnd >>> 16) % asciiLetters.length, Nat.mod_lt _ (by decide)⟩

/-- State update of `pRandASCII`: xor with the second seed word, multiply by
2654435761, with `uint32` wrap-around. -/
def nextRnd (rnd rnd2 : Nat) : Nat := ((rnd ^^^ rnd2) * 2654435761) % 4294967296

/-- The `pRandASCII` generator: starting from the two 32-bit seed words, emit
one alphabet character per position, updating the state after each. -/
def pRandASCII (rnd rnd2 : Nat) : Nat → List Char
  | 0 => []
  | n + 1 => pickChar rnd :: pRandASCII (nextRnd rnd rnd2) rnd2 n

/-- Claim C10: for every n, `pRandASCII` returns a string of exactly n
characters, each drawn from the 62-character alphabet of ASCII letters and
digits. -/
theorem pRandASCII_length_alphabet (rnd rnd2 n : Nat) :
    (pRandASCII rnd rnd2 n).length = n ∧
    (∀ c ∈ pRandASCII rnd rnd2 n, c ∈ asciiLetters ∧ c.isAlphanum = true) ∧
    asciiLetters.length = 62 := by
  have halpha : ∀ c ∈ asciiLetters, c.isAlphanum = true := by decide
  have hmem : ∀ (m r : Nat), ∀ c ∈ pRandASCII r rnd2 m, c ∈ asciiLetters := by
    intro m
    induction m with
    | zero => intro r c hc; simp [pRandASCII] at hc
    | succ k ih =>
      intro r c hc
      simp only [pRandASCII, List.mem_cons] at hc
      rcases hc with h | h
      · subst h
        unfold pickChar
        exact List.get_mem _ _ _
      · exact ih _ c h
  have hlen : ∀ (m r : Nat), (pRandASCII r rnd2 m).length = m := by
    intro m
    induction m with
    | zero => intro r; rfl
    | succ k ih => intro r; simp [pRandASCII, ih]
  exact ⟨hlen n rnd, fun c hc => ⟨hmem n rnd c hc, halpha c (hmem n rnd c hc)⟩,
    by decide⟩

/-- Claim C10 witness: the theorem applied at a concrete seed and length. -/
theorem pRandASCII_length_alphabet_witness :
    (pRandASCII 123456789 987654321 4).length = 4 ∧
    (∀ c ∈ pRandASCII 123456789 987654321 4,
      c ∈ asciiLetters ∧ c.isAlphanum = true) ∧
    asciiLetters.length = 62 :=
  pRandASCII_length_alphabet 123456789 987654321 4

/-! ## Operation records and log merging -/

/-- Modelled from the spec: the per-operation record of the `bench` package
(whose sources are not part of the snapshot), restricted to the fields the
claims touch.  Timestamps are nanosecond instants; `errorMsg` is empty when
the operation succeeded. -/
structure Operation where
  opType : String
  clientId : String
  thread : Nat
  bytes : Nat
  start : Nat
  endTime : Nat
  errorMsg : String
deriving DecidableEq

/-- Modelled from the spec: `Operations.OffsetThreads` of the `bench` package
(not under the source snapshot).  It adds the running offset to every thread
id of the log and returns the next offset, the maximum offset thread id plus
one; an empty log leaves the offset unchanged. -/
def offsetThreads (n : Nat) (ops : List Operation) : List Operation × Nat :=
  match ops with
  | [] => ([], n)
  | _ :: _ =>
    (ops.map fun o => { o with thread := o.thread + n },
     (((ops.map fun o => { o with thread := o.thread + n }).map
        Operation.thread).foldl Nat.max 0) + 1)

/-- The merge loop shared by `mainMerge` (list.go) and the download branch of
`runServerBenchmark` (benchserver.go): starting from offset 0, each log is
offset by the running offset and the offset is updated before moving on. -/
def offsetAllThreads (n : Nat) : List (List Operation) → List (List Operation)
  | [] => []
  | l :: ls =>
    let p := offsetThreads n l
    p.1 :: offsetAllThreads p.2 ls

/-- Modelled from the spec: `Operations.SortByStartTime` — orderings are
rebuilt by sorting on `start`. -/
def sortByStartTime (ops : List Operation) : List Operation :=
  ops.mergeSort fun a b => decide (a.start ≤ b.start)

/-- Concatenation of the offset logs followed by the final sort, as performed
by `mainMerge` and by the coordinator after downloading follower logs. -/
def mergeOps (logs : List (List Operation)) : List Operation :=
  sortByStartTime (offsetAllThreads 0 logs).flatten

theorem foldl_max_init_le (l : List Nat) (a : Nat) : a ≤ l.foldl Nat.max a := by
  induction l generalizing a with
  | nil => exact le_refl a
  | cons b t ih => exact le_trans (Nat.le_max_left a b) (ih (Nat.max a b))

theorem mem_le_foldl_max (l : List Nat) (x : Nat) :
    ∀ a : Nat, x ∈ l → x ≤ l.foldl Nat.max a := by
  induction l with
  | nil => intro a hx; cases hx
  | cons b t ih =>
    intro a hx
    rcases List.mem_cons.mp hx with h | h
    · subst h
      exact le_trans (Nat.le_max_right a x) (foldl_max_init_le t (Nat.max a x))
    · exact ih (Nat.max a b) h

theorem offsetThreads_fst (n : Nat) (ops : List Operation) :
    (offsetThreads n ops).1 = ops.map fun o => { o with thread := o.thread + n } := by
  cases ops <;> rfl

theorem offsetThreads_lb (n : Nat) (ops : List Operation) :
    ∀ o ∈ (offsetThreads n ops).1, n ≤ o.thread := by
  intro o ho
  rw [offsetThreads_fst] at ho
  rcases List.mem_map.mp ho with ⟨o', _, rfl⟩
  exact Nat.le_add_left n o'.thread

theorem offsetThreads_ub (n : Nat) (ops : List Operation) :
    ∀ o ∈ (offsetThreads n ops).1, o.thread < (offsetThreads n ops).2 := by
  cases ops with
  | nil => intro o ho; simp [offsetThreads] at ho
  | cons x t =>
    intro o ho
    rw [offsetThreads_fst] at ho
    show o.thread <
      (((x :: t).map fun o => { o with thread := o.thread + n }).map
        Operation.thread).foldl Nat.max 0 + 1
    exact Nat.lt_succ_of_le
      (mem_le_foldl_max _ _ 0 (List.mem_map_of_mem Operation.thread ho))

theorem offsetThreads_snd_ge (n : Nat) (ops : List Operation) :
    n ≤ (offsetThreads n ops).2 := by
  cases ops with
  | nil => exact le_refl n
  | cons x t =>
    show n ≤
      (((x :: t).map fun o => { o with thread := o.thread + n }).map
        Operation.thread).foldl Nat.max 0 + 1
    have h1 : ({ x with thread := x.thread + n } : Operation) ∈
        (x :: t).map fun o => { o with thread := o.thread + n } := by
      simp
    have h2 : x.thread + n ≤
        (((x :: t).map fun o => { o with thread := o.thread + n }).map
          Operation.thread).foldl Nat.max 0 :=
      mem_le_foldl_max _ _ 0 (List.mem_map_of_mem Operation.thread h1)
    omega

theorem offsetAll_lb (logs : List (List Operation)) (n : Nat) :
    ∀ part ∈ offsetAllThreads n logs, ∀ o ∈ part, n ≤ o.thread := by
  induction logs generalizing n with
  | nil => intro part hp; cases hp
  | cons l ls ih =>
    intro part hp o ho
    rcases List.mem_cons.mp hp with h | h
    · subst h
      exact offsetThreads_lb n l o ho
    · exact le_trans (offsetThreads_snd_ge n l) (ih _ _ h o ho)

theorem offsetAll_pairwise (logs : List (List Operation)) (n : Nat) :
    List.Pairwise (fun l1 l2 => ∀ a ∈ l1, ∀ b ∈ l2, a.thread ≠ b.thread)
      (offsetAllThreads n logs) := by
  induction logs generalizing n with
  | nil => exact List.Pairwise.nil
  | cons l ls ih =>
    refine List.Pairwise.cons ?_ (ih _)
    intro part hpart a ha b hb
    have hub : a.thread < (offsetThreads n l).2 := offsetThreads_ub n l a ha
    have hlb : (offsetThreads n l).2 ≤ b.thread :=
      offsetAll_lb ls (offsetThreads n l).2 part hpart b hb
    omega

/-- Claim C5: merging logs (coordinator download path or the merge command)
offsets every log's thread ids by the running offset before concatenation, so
the thread-id sets of distinct input logs are pairwise disjoint in the
combined log, and the combined log is the concatenation sorted by start
time (a permutation of the offset logs, sorted on `start`). -/
theorem mergeOps_threads_disjoint_sorted (logs : List (List Operation)) :
    List.Pairwise (fun l1 l2 => ∀ a ∈ l1, ∀ b ∈ l2, a.thread ≠ b.thread)
      (offsetAllThreads 0 logs) ∧
    List.Sorted (fun a b : Operation => a.start ≤ b.start) (mergeOps logs) ∧
    (mergeOps logs).Perm (offsetAllThreads 0 logs).flatten := by
  refine ⟨offsetAll_pairwise logs 0, ?_, List.mergeSort_perm _ _⟩
  have h := @List.sorted_mergeSort Operation
    (fun a b : Operation => decide (a.start ≤ b.start))
    (fun a b c h1 h2 => by
      simp only [decide_eq_true_eq] at h1 h2 ⊢
      omega)
    (fun a b => by simpa using Nat.le_total a.start b.start)
    (offsetAllThreads 0 logs).flatten
  exact h.imp fun hab => by simpa using hab

/-- Sample GET operation used by concrete witnesses. -/
def opGet : Operation :=
  { opType := "GET", clientId := "c1", thread := 0, bytes := 1024,
    start := 7, endTime := 12, errorMsg := "" }

/-- Sample PUT operation used by concrete witnesses. -/
def opPut : Operation :=
  { opType := "PUT", clientId := "c2", thread := 0, bytes := 2048,
    start := 3, endTime := 9, errorMsg := "" }

/-- Claim C5 witness: the theorem applied to two concrete single-operation
logs whose thread ids collide before merging. -/
theorem mergeOps_threads_disjoint_sorted_witness :
    List.Pairwise (fun l1 l2 => ∀ a ∈ l1, ∀ b ∈ l2, a.thread ≠ b.thread)
      (offsetAllThreads 0 [[opGet], [opPut]]) ∧
    List.Sorted (fun a b : Operation => a.start ≤ b.start)
      (mergeOps [[opGet], [opPut]]) ∧
    (mergeOps [[opGet], [opPut]]).Perm
      (offsetAllThreads 0 [[opGet], [opPut]]).flatten :=
  mergeOps_threads_disjoint_sorted [[opGet], [opPut]]

/-! ## Comparing two runs (`printCompare`, cmp command) -/

/-- Modelled from the spec: `Operations.OpTypes` — the distinct operation
types occurring in a log, first occurrences first. -/
def opTypesOf (ops : List Operation) : List String :=
  (ops.map Operation.opType).eraseDups

/-- Modelled from the spec: `Operations.IsMixed` — a mixed workload is
detected when the operation type varies. -/
def opsIsMixed (ops : List Operation) : Bool :=
  decide (1 < (opTypesOf ops).length)

/-- Modelled from the spec: `Operations.FilterByOp` — the restriction of a
log to one operation type. -/
def filterByOp (typ : String) (ops : List Operation) : List Operation :=
  ops.filter fun o => decide (o.opType = typ)

/-- Modelled from the spec: `Operations.Duration` — the total time span of a
log, last end minus first start (0 for an empty log). -/
def opsDuration (ops : List Operation) : Nat :=
  match ops with
  | [] => 0
  | o :: rest =>
    ((ops.map Operation.endTime).foldl Nat.max 0) -
      ((rest.map Operation.start).foldl Nat.min o.start)

/-- One invocation of `bench.Compare` issued by `printCompare`: the op type,
the two filtered logs, the single segment duration passed for both sides, and
the all-threads flag (`!isMultiOp`). -/
structure CompareCall where
  typ : String
  beforeOps : List Operation
  afterOps : List Operation
  dur : Nat
  allThreads : Bool
deriving DecidableEq

/-- The `printCompare` function of the cmp command (output elided): a fatal
error when the two logs disagree on being mixed, otherwise one `bench.Compare`
call per op type of the before log (restricted by the `analyze.op` flag
`wantOp` when set), with the segment duration `analysisDur` computed from the
filtered before log's total duration and passed identically for both sides. -/
def printCompare (flagDur : Option Nat) (wantOp : Option String)
    (before after : List Operation) : Except String (List CompareCall) :=
  let isMultiOp := opsIsMixed before
  if isMultiOp ≠ opsIsMixed after then
    .error "cannot compare multiple operations with a single operation"
  else
    .ok <| (opTypesOf before).filterMap fun typ =>
      match wantOp with
      | some w =>
        if w ≠ typ then none
        else some
          { typ := typ, beforeOps := filterByOp typ before,
            afterOps := filterByOp typ after,
            dur := analysisDur flagDur (opsDuration (filterByOp typ before)),
            allThreads := !isMultiOp }
      | none => some
          { typ := typ, beforeOps := filterByOp typ before,
            afterOps := filterByOp typ after,
            dur := analysisDur flagDur (opsDuration (filterByOp typ before)),
            allThreads := !isMultiOp }

theorem filterMap_some_map {α β : Type} (f : α → β) (l : List α) :
    l.filterMap (fun a => some (f a)) = l.map f := by
  induction l with
  | nil => rfl
  | cons a t ih => simp [List.filterMap_cons, ih]

/-- Claim C6: compare fails exactly when the before and after logs disagree
on being mixed workloads; when they agree it issues one compare call per
op type present in the before log, each comparing the two logs restricted to
that type at one shared segment duration chosen via `analysisDur` from the
before log's total duration for that type. -/
theorem printCompare_calls (flagDur : Option Nat) (before after : List Operation) :
    ((printCompare flagDur none before after).isOk = true ↔
      opsIsMixed before = opsIsMixed after) ∧
    (∀ calls, printCompare flagDur none before after = .ok calls →
      calls.map CompareCall.typ = opTypesOf before ∧
      ∀ c ∈ calls,
        c.beforeOps = filterByOp c.typ before ∧
        c.afterOps = filterByOp c.typ after ∧
        c.dur = analysisDur flagDur (opsDuration (filterByOp c.typ before))) := by
  unfold printCompare
  by_cases h : opsIsMixed before = opsIsMixed after
  · rw [if_neg (by simpa using h)]
    refine ⟨⟨fun _ => h, fun _ => rfl⟩, ?_⟩
    intro calls hcalls
    have h2 := Except.ok.inj hcalls
    rw [filterMap_some_map] at h2
    subst h2
    constructor
    · rw [List.map_map]
      exact (rfl : List.map _ _ = List.map id _).trans (List.map_id _)
    · intro c hcmem
      rcases List.mem_map.mp hcmem with ⟨typ, _, rfl⟩
      exact ⟨rfl, rfl, rfl⟩
  · rw [if_pos (by simpa using h)]
    exact ⟨⟨fun hfalse => absurd hfalse Bool.false_ne_true,
      fun heq => absurd heq h⟩, fun calls hcalls => by cases hcalls⟩

/-- Claim C6 witness: the theorem applied to two concrete single-op logs that
agree on not being mixed. -/
theorem printCompare_calls_witness :
    (printCompare none none [opGet] [opGet]).isOk = true :=
  (printCompare_calls none [opGet] [opGet]).1.mpr rfl

/-! ## Coordinator stage machine (benchserver.go) -/

/-- Terminal outcome of the coordinator's status-poll loop on one follower:
the round-trip failed (connection lost), the follower replied with an error,
or the follower reported the stage finished. -/
inductive StageReport
  | lost (e : String)
  | failed (e : String)
  | finished
deriving DecidableEq

/-- True exactly for the `finished` poll outcome. -/
def StageReport.isFinished : StageReport → Bool
  | .finished => true
  | _ => false

/-- Outcome of one `startStage` request on a follower. -/
inductive StartResult
  | ok
  | err (e : String)
deriving DecidableEq

/-- True exactly for a successful stage start. -/
def StartResult.isOk : StartResult → Bool
  | .ok => true
  | _ => false

/-- The `waitForStage` method of `connections`: for every connected follower
the coordinator polls until the follower finishes or fails.  A follower whose
poll fails is disconnected; with `failOnErr` any such failure is fatal
(`fatalIf` aborts the process), otherwise it is only logged.  The result is
the new connection vector and whether the run was aborted.  Connections are a
vector of booleans (`ws[i] != nil`); per-follower goroutines are modelled by
their terminal poll outcomes, one per follower. -/
def waitForStage (failOnErr : Bool) (conns : List Bool)
    (reports : List StageReport) : List Bool × Bool :=
  ((List.range conns.length).map fun i =>
      conns.getD i false && (reports.getD i .finished).isFinished,
   failOnErr && ((List.range conns.length).any fun i =>
      conns.getD i false && !(reports.getD i .finished).isFinished))

/-- The `startStageAll` method of `connections`: request the stage start on
every connected follower; a follower whose request fails is dropped, and with
`failOnErr` the failure is fatal. -/
def startStageAll (failOnErr : Bool) (conns : List Bool)
    (results : List StartResult) : List Bool × Bool :=
  ((List.range conns.length).map fun i =>
      conns.getD i false && (results.getD i .ok).isOk,
   failOnErr && ((List.range conns.length).any fun i =>
      conns.getD i false && !(results.getD i .ok).isOk))

/-- The `downloadOps` method of `connections`: ask every still-connected
follower for its operations; a follower whose `SendOps` round-trip fails, or
who replies with an error, contributes nothing. -/
def downloadOps (conns : List Bool)
    (sends : List (Except String (List Operation))) : List (List Operation) :=
  (List.range conns.length).filterMap fun i =>
    if conns.getD i false then (sends.getD i (.error "")).toOption else none

theorem getD_map_range {α : Type} (f : Nat → α) (n i : Nat) (d : α)
    (h : i < n) : ((List.range n).map f).getD i d = f i := by
  rw [List.getD_eq_getElem?_getD, List.getElem?_map, List.getElem?_range h]
  rfl

/-- Claim C3: during Prepare (`waitForStage` with `failOnErr`) any follower
error or lost connection is fatal; during Benchmark (`failOnErr` off) a
failure is never fatal, the failing follower is disconnected, everything
later collected by `downloadOps` comes from a follower that finished the
benchmark stage while connected, and every connected follower that finished
and answers `SendOps` successfully has its log collected. -/
theorem stage_failure_policy (conns : List Bool)
    (prepReports benchReports : List StageReport)
    (sends : List (Except String (List Operation))) :
    ((waitForStage true conns prepReports).2 = true ↔
      ∃ i, i < conns.length ∧ conns.getD i false = true ∧
        (prepReports.getD i .finished).isFinished = false) ∧
    (waitForStage false conns benchReports).2 = false ∧
    (∀ i, i < conns.length →
      (waitForStage false conns benchReports).1.getD i false =
        (conns.getD i false && (benchReports.getD i .finished).isFinished)) ∧
    (∀ ops ∈ downloadOps (waitForStage false conns benchReports).1 sends,
      ∃ i, i < conns.length ∧ conns.getD i false = true ∧
        (benchReports.getD i .finished).isFinished = true ∧
        sends.getD i (.error "") = .ok ops) ∧
    (∀ i, i < conns.length → ∀ ops, conns.getD i false = true →
      (benchReports.getD i .finished).isFinished = true →
      sends.getD i (.error "") = .ok ops →
      ops ∈ downloadOps (waitForStage false conns benchReports).1 sends) := by
  have hwf : ∀ i, i < conns.length →
      (waitForStage false conns benchReports).1.getD i false =
        (conns.getD i false && (benchReports.getD i .finished).isFinished) := by
    intro i hi
    exact getD_map_range _ _ _ _ hi
  have hlen : (waitForStage false conns benchReports).1.length = conns.length := by
    simp [waitForStage]
  refine ⟨?_, rfl, hwf, ?_, ?_⟩
  · simp only [waitForStage, Bool.true_and, List.any_eq_true, List.mem_range,
      Bool.and_eq_true, Bool.not_eq_true']
  · intro ops hops
    rcases List.mem_filterMap.mp hops with ⟨i, hir, hfi⟩
    rw [hlen] at hir
    have hi : i < conns.length := List.mem_range.mp hir
    by_cases hcond : (waitForStage false conns benchReports).1.getD i false = true
    · rw [if_pos hcond] at hfi
      rw [hwf i hi] at hcond
      simp only [Bool.and_eq_true] at hcond
      rcases hcond with ⟨hc, hf⟩
      refine ⟨i, hi, hc, hf, ?_⟩
      cases hsend : sends.getD i (Except.error "") with
      | error e => rw [hsend] at hfi; cases hfi
      | ok o =>
        rw [hsend] at hfi
        cases hfi
        rfl
    · rw [if_neg hcond] at hfi
      cases hfi
  · intro i hi ops hc hf hsend
    refine List.mem_filterMap.mpr ⟨i, List.mem_range.mpr (hlen ▸ hi), ?_⟩
    rw [if_pos (by rw [hwf i hi, hc, hf]; rfl), hsend]
    rfl

/-- Claim C3 witness: on a single connected follower whose prepare-stage poll
reports a lost connection, the prepare wait is fatal. -/
theorem stage_failure_policy_witness :
    (waitForStage true [true] [StageReport.lost "gone"]).2 = true :=
  (stage_failure_policy [true] [StageReport.lost "gone"] [StageReport.finished]
    [Except.ok [opGet]]).1.mpr ⟨0, by decide, by decide, by decide⟩

/-! ## Coordinator stage ordering (`runServerBenchmark`, benchserver.go) -/

/-- The three follower stages driven by the coordinator (`benchmarkStage`
values "prepare", "benchmark", "cleanup" in the source). -/
inductive BStage
  | prepare
  | benchmark
  | cleanup
deriving DecidableEq

/-- Observable coordinator actions: requesting a stage start on the
followers, finishing the wait for a stage, and collecting operations via
`SendOps`. -/
inductive CoordEvent
  | startStage (s : BStage)
  | waitStage (s : BStage)
  | sendOps
deriving DecidableEq

/-- The stage-driving portion of `runServerBenchmark` (benchserver.go lines
147 to 218), with each effect appending its event to the trace: start and
wait for Prepare with `failOnErr` (aborting the run on failure), start and
wait for Benchmark with errors only logged, download the operations, then
start and wait for Cleanup with errors only logged.  Arguments give each
follower's per-stage outcomes; the result is the event trace and the
downloaded logs (`none` when the run aborted). -/
def runServerBenchmarkFlow (conns0 : List Bool)
    (prepStarts benchStarts cleanStarts : List StartResult)
    (prepReports benchReports cleanReports : List StageReport)
    (sends : List (Except String (List Operation))) :
    List CoordEvent × Option (List (List Operation)) :=
  let s1 := startStageAll true conns0 prepStarts
  let t1 := [CoordEvent.startStage BStage.prepare]
  if s1.2 then (t1, none) else
  let w1 := waitForStage true s1.1 prepReports
  let t2 := t1 ++ [CoordEvent.waitStage BStage.prepare]
  if w1.2 then (t2, none) else
  let s2 := startStageAll false w1.1 benchStarts
  let t3 := t2 ++ [CoordEvent.startStage BStage.benchmark]
  let w2 := waitForStage false s2.1 benchReports
  let t4 := t3 ++ [CoordEvent.waitStage BStage.benchmark]
  let res := downloadOps w2.1 sends
  let t5 := t4 ++ [CoordEvent.sendOps]
  let s3 := startStageAll false w2.1 cleanStarts
  let t6 := t5 ++ [CoordEvent.startStage BStage.cleanup]
  let _w3 := waitForStage false s3.1 cleanReports
  let t7 := t6 ++ [CoordEvent.waitStage BStage.cleanup]
  (t7, some res)

/-- Claim C4: whenever the distributed run completes, the coordinator's trace
is exactly start Prepare, wait Prepare, start Benchmark, wait Benchmark,
collect operations, start Cleanup, wait Cleanup — each stage start follows
the wait for the previous stage and `SendOps` follows the Benchmark wait; and
when the run aborts (during Prepare, the only fatal window), the Benchmark
stage is never started and no operations are collected. -/
theorem coordinator_stage_order (conns0 : List Bool)
    (prepStarts benchStarts cleanStarts : List StartResult)
    (prepReports benchReports cleanReports : List StageReport)
    (sends : List (Except String (List Operation)))
    (tr : List CoordEvent) (res : Option (List (List Operation)))
    (h : runServerBenchmarkFlow conns0 prepStarts benchStarts cleanStarts
      prepReports benchReports cleanReports sends = (tr, res)) :
    (res.isSome = true →
      tr = [CoordEvent.startStage BStage.prepare,
            CoordEvent.waitStage BStage.prepare,
            CoordEvent.startStage BStage.benchmark,
            CoordEvent.waitStage BStage.benchmark,
            CoordEvent.sendOps,
            CoordEvent.startStage BStage.cleanup,
            CoordEvent.waitStage BStage.cleanup]) ∧
    (res = none →
      CoordEvent.startStage BStage.benchmark ∉ tr ∧
      CoordEvent.sendOps ∉ tr) := by
  simp only [runServerBenchmarkFlow] at h
  split_ifs at h with h1 h2
  · injection h with ha hb
    subst ha
    subst hb
    exact ⟨fun hs => by simp at hs, fun _ => by decide⟩
  · injection h with ha hb
    subst ha
    subst hb
    exact ⟨fun hs => by simp at hs, fun _ => by decide⟩
  · injection h with ha hb
    subst ha
    subst hb
    exact ⟨fun _ => rfl, fun hn => by cases hn⟩

/-- Claim C4 witness: a run with one follower that succeeds at every stage
produces exactly the seven-event trace. -/
theorem coordinator_stage_order_witness :
    (runServerBenchmarkFlow [true] [StartResult.ok] [StartResult.ok]
        [StartResult.ok] [StageReport.finished] [StageReport.finished]
        [StageReport.finished] [Except.ok [opGet]]).1 =
      [CoordEvent.startStage BStage.prepare,
       CoordEvent.waitStage BStage.prepare,
       CoordEvent.startStage BStage.benchmark,
       CoordEvent.waitStage BStage.benchmark,
       CoordEvent.sendOps,
       CoordEvent.startStage BStage.cleanup,
       CoordEvent.waitStage BStage.cleanup] :=
  (coordinator_stage_order [true] [StartResult.ok] [StartResult.ok]
    [StartResult.ok] [StageReport.finished] [StageReport.finished]
    [StageReport.finished] [Except.ok [opGet]] _ _ rfl).1 (by decide)

/-! ## Mode dispatch and auto-termination settings (`runBench`, benchmark.go) -/

/-- The fields of `bench.Common` touched by `runBench`'s configuration code:
the auto-termination minimum duration (nanoseconds) and scale (the
`autoterm.pct` value divided by 100, modelled as a rational), plus the
clear-bucket flag.  Go zero values are 0, 0 and false. -/
structure CommonCfg where
  autoTermDur : Nat
  autoTermScale : Rat
  clear : Bool
deriving DecidableEq

/-- Inputs `runBench` dispatches on: whether a follower-side benchmark is
active (`activeBenchmark != nil`), the `warp-client` flag, and the
auto-termination flags. -/
structure BenchParams where
  activeClient : Bool
  warpClient : String
  autoterm : Bool
  autotermDur : Nat
  autotermPct : Rat
  noclear : Bool

/-- The three execution paths of `runBench`. -/
inductive BenchPath
  | clientMode
  | serverMode
  | standalone
deriving DecidableEq

/-- The dispatch and configuration logic of `runBench` (benchmark.go lines
95 to 120): with an active client benchmark it defers to
`runClientBenchmark`, which never touches the auto-termination fields; with
`warp-client` set it defers to `runServerBenchmark` and returns; otherwise
the standalone path sets `Clear` and, only when `autoterm` is set, copies
`autoterm.dur` and `autoterm.pct / 100` into the common configuration. -/
def runBenchPath (p : BenchParams) (c0 : CommonCfg) : BenchPath × CommonCfg :=
  if p.activeClient then (.clientMode, c0)
  else if p.warpClient ≠ "" then (.serverMode, c0)
  else
    (.standalone,
     if p.autoterm then
       { c0 with clear := !p.noclear, autoTermDur := p.autotermDur,
                 autoTermScale := p.autotermPct / 100 }
     else { c0 with clear := !p.noclear })

/-- Claim C7: a benchmark executed on a follower or orchestrated by the
coordinator never gets the auto-termination settings applied — starting from
the zero-valued configuration, only the standalone path with the `autoterm`
flag sets `autoterm.dur` and `autoterm.pct`, so in client or server mode the
fields keep their disabled zero values. -/
theorem runBench_autoterm (p : BenchParams) (c0 : CommonCfg)
    (hd : c0.autoTermDur = 0) (hs : c0.autoTermScale = 0) :
    ((runBenchPath p c0).1 ≠ BenchPath.standalone →
      (runBenchPath p c0).2.autoTermDur = 0 ∧
      (runBenchPath p c0).2.autoTermScale = 0) ∧
    (p.activeClient = true → (runBenchPath p c0).1 = BenchPath.clientMode) ∧
    (p.activeClient = false → p.warpClient ≠ "" →
      (runBenchPath p c0).1 = BenchPath.serverMode) ∧
    ((runBenchPath p c0).1 = BenchPath.standalone → p.autoterm = true →
      (runBenchPath p c0).2.autoTermDur = p.autotermDur ∧
      (runBenchPath p c0).2.autoTermScale = p.autotermPct / 100) := by
  unfold runBenchPath
  split_ifs with h1 h2 h3 <;> simp_all

/-- Claim C7 witness: a follower-mode invocation (active client benchmark)
keeps the auto-termination fields disabled even though the flags request
auto-termination. -/
theorem runBench_autoterm_witness :
    (runBenchPath ⟨true, "", true, 10000000000, 75 / 10, false⟩
        ⟨0, 0, false⟩).2.autoTermDur = 0 ∧
    (runBenchPath ⟨true, "", true, 10000000000, 75 / 10, false⟩
        ⟨0, 0, false⟩).2.autoTermScale = 0 :=
  (runBench_autoterm ⟨true, "", true, 10000000000, 75 / 10, false⟩
    ⟨0, 0, false⟩ rfl rfl).1 (by decide)

/-! ## Flag forwarding to followers (`runServerBenchmark` / `flagToJSON`) -/

/-- The fixed exclusion set of `runServerBenchmark`: flags never forwarded to
followers. -/
def excludedFlags : List String :=
  ["warp-client", "warp-client-server", "serverprof", "autocompletion",
   "help", "syncstart", "analyze.out"]

/-- Typed value of a CLI flag, one constructor per case of `flagToJSON`'s
type switch; `otherVal` stands for any unhandled flag type. -/
inductive FlagVal
  | stringVal (s : String)
  | boolVal (b : Bool)
  | int64Val (i : Int)
  | intVal (i : Int)
  | durationVal (d : Nat)
  | uintVal (n : Nat)
  | uint64Val (n : Nat)
  | float64Val (q : Rat)
  | otherVal
deriving DecidableEq

/-- A CLI flag as seen by the coordinator: its name, whether it was
explicitly set on the command line (`ctx.IsSet`), and its value. -/
structure CFlag where
  name : String
  isSet : Bool
  val : FlagVal
deriving DecidableEq

/-- The `flagToJSON` function (benchserver.go): serialize a set flag's value
to a string (number formatting abstracted to decimal rendering); an unset
flag serializes to the empty string, and a set flag of an unhandled type is
an error. -/
def flagToJSON (f : CFlag) : Except String String :=
  match f.val with
  | .stringVal s => if f.isSet then .ok s else .ok ""
  | .boolVal b => if f.isSet then .ok (toString b) else .ok ""
  | .int64Val i => if f.isSet then .ok (toString i) else .ok ""
  | .intVal i => if f.isSet then .ok (toString i) else .ok ""
  | .durationVal d => if f.isSet then .ok (toString d) else .ok ""
  | .uintVal n => if f.isSet then .ok (toString n) else .ok ""
  | .uint64Val n => if f.isSet then .ok (toString n) else .ok ""
  | .float64Val q => if f.isSet then .ok (toString q) else .ok ""
  | .otherVal => if f.isSet then .error "unhandled flag type" else .ok ""

/-- The flag-serialization loop of `runServerBenchmark` (benchserver.go lines
122 to 133): walk the command's flags, skip the exclusion set, and for every
explicitly set flag record `flagToJSON`'s rendering, aborting on a
serialization error. -/
def serializeFlags : List CFlag → Except String (List (String × String))
  | [] => .ok []
  | f :: rest =>
    if f.name ∈ excludedFlags then serializeFlags rest
    else if f.isSet then
      match flagToJSON f with
      | .error e => .error e
      | .ok v =>
        match serializeFlags rest with
        | .error e => .error e
        | .ok m => .ok ((f.name, v) :: m)
    else serializeFlags rest

/-- Claim C8: the forwarded flag map contains exactly the explicitly set
flags outside the exclusion set — every entry comes from a set flag whose
name is not excluded, every set non-excluded flag contributes an entry, and
no excluded flag name ever appears in the map. -/
theorem serializeFlags_exact (flags : List CFlag) :
    (∀ m, serializeFlags flags = .ok m →
      (∀ p ∈ m, p.1 ∉ excludedFlags ∧
        ∃ f ∈ flags, f.name = p.1 ∧ f.isSet = true ∧ flagToJSON f = .ok p.2) ∧
      (∀ f ∈ flags, f.name ∉ excludedFlags → f.isSet = true →
        ∃ v, (f.name, v) ∈ m)) ∧
    (∀ m, serializeFlags flags = .ok m →
      ∀ x ∈ excludedFlags, ∀ v, (x, v) ∉ m) := by
  have main : ∀ m, serializeFlags flags = .ok m →
      (∀ p ∈ m, p.1 ∉ excludedFlags ∧
        ∃ f ∈ flags, f.name = p.1 ∧ f.isSet = true ∧ flagToJSON f = .ok p.2) ∧
      (∀ f ∈ flags, f.name ∉ excludedFlags → f.isSet = true →
        ∃ v, (f.name, v) ∈ m) := by
    induction flags with
    | nil =>
      intro m hm
      cases hm
      exact ⟨fun p hp => absurd hp (List.not_mem_nil p),
        fun f hf => absurd hf (List.not_mem_nil f)⟩
    | cons f rest ih =>
      intro m hm
      unfold serializeFlags at hm
      by_cases hex : f.name ∈ excludedFlags
      · rw [if_pos hex] at hm
        rcases ih m hm with ⟨h1, h2⟩
        refine ⟨fun p hp => ?_, fun g hg hgex hgset => ?_⟩
        · rcases h1 p hp with ⟨hpe, g, hg, hprops⟩
          exact ⟨hpe, g, List.mem_cons_of_mem f hg, hprops⟩
        · rcases List.mem_cons.mp hg with h | h
          · subst h
            exact absurd hex hgex
          · exact h2 g h hgex hgset
      · rw [if_neg hex] at hm
        by_cases hset : f.isSet = true
        · rw [if_pos hset] at hm
          cases hjson : flagToJSON f with
          | error e => rw [hjson] at hm; cases hm
          | ok v =>
            rw [hjson] at hm
            cases hrest : serializeFlags rest with
            | error e => rw [hrest] at hm; cases hm
            | ok m2 =>
              rw [hrest] at hm
              cases hm
              rcases ih m2 hrest with ⟨h1, h2⟩
              refine ⟨fun p hp => ?_, fun g hg hgex hgset => ?_⟩
              · rcases List.mem_cons.mp hp with h | h
                · subst h
                  exact ⟨hex, f, List.mem_cons_self f rest, rfl, hset, hjson⟩
                · rcases h1 p h with ⟨hpe, g, hgmem, hprops⟩
                  exact ⟨hpe, g, List.mem_cons_of_mem f hgmem, hprops⟩
              · rcases List.mem_cons.mp hg with h | h
                · subst h
                  exact ⟨v, List.mem_cons_self _ _⟩
                · rcases h2 g h hgex hgset with ⟨w, hw⟩
                  exact ⟨w, List.mem_cons_of_mem _ hw⟩
        · rw [if_neg hset] at hm
          rcases ih m hm with ⟨h1, h2⟩
          refine ⟨fun p hp => ?_, fun g hg hgex hgset => ?_⟩
          · rcases h1 p hp with ⟨hpe, g, hgmem, hprops⟩
            exact ⟨hpe, g, List.mem_cons_of_mem f hgmem, hprops⟩
          · rcases List.mem_cons.mp hg with h | h
            · subst h
              exact absurd hgset hset
            · exact h2 g h hgex hgset
  refine ⟨main, ?_⟩
  intro m hm x hx v hmem
  exact absurd hx ((main m hm).1 (x, v) hmem).1

/-- Claim C8 witness: with `warp-client` set alongside an ordinary set flag,
only the ordinary flag is forwarded and the excluded name is absent. -/
theorem serializeFlags_exact_witness :
    serializeFlags
        [⟨"warp-client", true, FlagVal.stringVal "h1,h2"⟩,
         ⟨"duration", true, FlagVal.stringVal "1m"⟩] =
      .ok [("duration", "1m")] ∧
    ("warp-client", "h1,h2") ∉ [(("duration" : String), ("1m" : String))] :=
  ⟨rfl,
   (serializeFlags_exact
      [⟨"warp-client", true, FlagVal.stringVal "h1,h2"⟩,
       ⟨"duration", true, FlagVal.stringVal "1m"⟩]).2
     [("duration", "1m")] rfl "warp-client" (by decide) "h1,h2"⟩

end Warp
